import Mathlib

/-!
Verification of the veda-stac-ingestor ingestion core against its
natural-language specification.

The development shallowly embeds the Python code under api/src:
pydantic models become structures, the DynamoDB table becomes a list of
records with overwrite-by-key puts, lambda handlers become pure functions
whose external effects (the pgstac bulk load outcome, the wall clock) are
explicit parameters, and raised exceptions become Except / Option results.
Each embedded definition cites the source file and lines it translates.
-/

deriving instance DecidableEq for Except

namespace Veda

/-! ## Status enumeration (api/src/schemas.py lines 82-94)

Python: class Status(str, enum.Enum) with members started, queued, failed,
succeeded, cancelled, and a classmethod:

  def missing(cls, value):
      for member in cls:
          if member.value.lower() == value.lower():
              return member
      return cls.unknown

(The real method name is the enum hook with underscores around the word
missing.)  Note that the class declares no member named unknown, so the
final line raises AttributeError at runtime; we model a construction that
raises as a result of none. -/

/-- Python str.lower on one character (the status values are ASCII). -/
def lowerAscii (c : Char) : Char :=
  if 'A' ≤ c && c ≤ 'Z' then Char.ofNat (c.toNat + 32) else c

inductive Status where
  | started : Status
  | queued : Status
  | failed : Status
  | succeeded : Status
  | cancelled : Status
deriving DecidableEq, Repr

/-- Member value strings, in declaration order (schemas.py lines 90-94). -/
def Status.value : Status → String
  | .started => "started"
  | .queued => "queued"
  | .failed => "failed"
  | .succeeded => "succeeded"
  | .cancelled => "cancelled"

/-- Members in declaration order, as iterated by the fallback lookup loop. -/
def statusMembers : List Status :=
  [Status.started, Status.queued, Status.failed, Status.succeeded, Status.cancelled]

/-- The enum fallback lookup hook (schemas.py lines 83-88): compare the
candidate string against each member value case-insensitively; if none
matches, the source executes a reference to a nonexistent member named
unknown, which raises AttributeError.  none models that raised error. -/
def Status.missingHook (value : String) : Option Status :=
  statusMembers.find? (fun member =>
    member.value.toList.map lowerAscii == value.toList.map lowerAscii)

/-- Constructing Status(value) in Python: first the exact value lookup the
enum machinery performs, then the fallback hook.  A result of none means
the construction raises instead of returning a member. -/
def statusOfString (value : String) : Option Status :=
  match statusMembers.find? (fun member => member.value == value) with
  | some member => some member
  | none => Status.missingHook value

/-! ## Ingestion record and durable store (api/src/schemas.py lines 107-137,
api/src/services.py)

The Ingestion pydantic model carries a full catalog-item payload in its
item field; no operation verified here inspects the payload, so it is a
type parameter.  Timestamps are modelled as naturals (datetime.now() is an
explicit now argument).  The DynamoDB table is a list of records and
put_item overwrites by the (created_by, id) key pair. -/

structure Ingestion (A : Type) where
  id : String
  status : Status
  message : Option String
  created_by : String
  created_at : Nat
  updated_at : Nat
  item : A
deriving DecidableEq, Repr

/-- put_item / table write: full overwrite keyed by (created_by, id)
(services.py Database.write, and the batch writer of ingestor.py with
overwrite_by_pkeys created_by, id). -/
def dbWrite {A : Type} (db : List (Ingestion A)) (r : Ingestion A) : List (Ingestion A) :=
  if db.any (fun x => x.created_by == r.created_by && x.id == r.id) then
    db.map (fun x => if x.created_by == r.created_by && x.id == r.id then r else x)
  else
    db ++ [r]

/-- Ingestion.save (schemas.py lines 130-133): stamp updated_at with the
current time, write to the store, return the record. -/
def Ingestion.save {A : Type} (self : Ingestion A) (db : List (Ingestion A)) (now : Nat) :
    Ingestion A × List (Ingestion A) :=
  let stamped : Ingestion A := { self with updated_at := now }
  (stamped, dbWrite db stamped)

/-- Ingestion.enqueue (schemas.py lines 122-124): set status to queued and save. -/
def Ingestion.enqueue {A : Type} (self : Ingestion A) (db : List (Ingestion A)) (now : Nat) :
    Ingestion A × List (Ingestion A) :=
  Ingestion.save { self with status := Status.queued } db now

/-- Ingestion.cancel (schemas.py lines 126-128): set status to cancelled and save. -/
def Ingestion.cancel {A : Type} (self : Ingestion A) (db : List (Ingestion A)) (now : Nat) :
    Ingestion A × List (Ingestion A) :=
  Ingestion.save { self with status := Status.cancelled } db now

/-! ## HTTP-facing ingestion operations (api/src/main.py) -/

/-- The payload of fastapi.HTTPException as raised in main.py. -/
structure HTTPException where
  status_code : Nat
  detail : String
deriving DecidableEq, Repr

/-- UpdateIngestionRequest (schemas.py lines 180-182): both fields default
to unset; update.dict(exclude_unset=True) keeps only the fields the caller
supplied, which none models here. -/
structure UpdateIngestionRequest where
  status : Option Status := none
  message : Option String := none

/-- create_ingestion (main.py lines 186-199): build an Ingestion in queued
state for the authenticated username and enqueue it.  The created_at /
updated_at validator of schemas.py lines 117-120 fills absent timestamps
with now. -/
def create_ingestion {A : Type} (id : String) (username : String) (item : A)
    (db : List (Ingestion A)) (now : Nat) : Ingestion A × List (Ingestion A) :=
  Ingestion.enqueue
    { id := id, status := Status.queued, message := none, created_by := username,
      created_at := now, updated_at := now, item := item } db now

/-- update_ingestion (main.py lines 221-230): copy the fetched record,
replacing exactly the fields the caller set, then save. -/
def update_ingestion {A : Type} (ingestion : Ingestion A) (update : UpdateIngestionRequest)
    (db : List (Ingestion A)) (now : Nat) : Ingestion A × List (Ingestion A) :=
  let updated : Ingestion A :=
    { ingestion with
      status := update.status.getD ingestion.status,
      message := update.message.or ingestion.message }
  Ingestion.save updated db now

/-- cancel_ingestion (main.py lines 238-252): reject with HTTP 400 when the
record is not queued (the store is untouched), otherwise cancel and save.
The pair returned is (response, store after the call). -/
def cancel_ingestion {A : Type} (ingestion : Ingestion A) (db : List (Ingestion A)) (now : Nat) :
    Except HTTPException (Ingestion A) × List (Ingestion A) :=
  if ingestion.status ≠ Status.queued then
    (Except.error
      { status_code := 400,
        detail := "Unable to delete ingestion if status is not queued" }, db)
  else
    let (saved, db2) := Ingestion.cancel ingestion db now
    (Except.ok saved, db2)

/-! ## Change-feed batch loader (api/src/ingestor.py)

One lambda invocation handles one DynamoDB-stream micro-batch.  The feed
events arrive as already-deserialized new images (the boto3/ddbcereal
deserializers of lines 37-57 are external decoders); the outcome of the
pgstac bulk load (utils.load_into_pgstac, called at lines 105-111) is an
explicit Except parameter whose error value is str(e), the text of the
raised exception. -/

/-- get_queued_ingestions (ingestor.py lines 37-60), after deserialization:
keep only the records whose new image has status queued. -/
def get_queued_ingestions {A : Type} (records : List (Ingestion A)) : List (Ingestion A) :=
  records.filter (fun r => r.status == Status.queued)

/-- update_dynamodb (ingestor.py lines 63-84): for each ingestion of the
batch, put a copy with the outcome status, the given message (note: the
message is always written, so a none message overwrites any stored one)
and updated_at = now.  The returned list is the batch of written items. -/
def update_dynamodb {A : Type} (ingestions : List (Ingestion A)) (status : Status)
    (message : Option String) (now : Nat) : List (Ingestion A) :=
  ingestions.map (fun ingestion =>
    { ingestion with status := status, message := message, updated_at := now })

/-- handler (ingestor.py lines 87-125): filter the stream batch to queued
records; if none remain, return without writes; otherwise bulk-load into
pgstac and write every record of the batch back with succeeded / no
message on success, or failed / str(e) on any exception e.  The result is
the list of records written back to DynamoDB. -/
def handler {A : Type} (records : List (Ingestion A)) (loadResult : Except String Unit)
    (now : Nat) : List (Ingestion A) :=
  if (get_queued_ingestions records).isEmpty then
    []
  else
    match loadResult with
    | Except.ok _ => update_dynamodb (get_queued_ingestions records) Status.succeeded none now
    | Except.error e => update_dynamodb (get_queued_ingestions records) Status.failed (some e) now

/-! ## Listing ingestions (api/src/services.py lines 31-35, main.py lines
165-177)

services.Database.fetch_many is declared with the single keyword parameter
status and performs a plain query with no Limit and no ExclusiveStartKey:

  def fetch_many(self, status: str):
      data = self.table.query(KeyConditionExpression=Key(status-eq))
      return parse_obj_as(List[Ingestion], data[Items])

but the route handler list_ingestions calls it as

  db.fetch_many(status=..., next=..., limit=...)

We model Python keyword-argument binding: a call succeeds only when every
supplied keyword names a parameter, otherwise it raises TypeError. -/

/-- ListIngestionRequest (schemas.py lines 140-144): query parameters of
the list route. -/
structure ListIngestionRequest where
  status : Status := Status.queued
  limit : Option Nat := none
  next : Option String := none

/-- Parameter names of Database.fetch_many (services.py line 31), self excluded. -/
def fetch_many_paramNames : List String := ["status"]

/-- Keyword arguments supplied by the call in list_ingestions (main.py lines 175-177). -/
def list_ingestions_callKwargs : List String := ["status", "next", "limit"]

/-- Python keyword binding: every supplied keyword must name a declared
parameter, otherwise the call raises TypeError. -/
def python_kwargs_accepted (params kwargs : List String) : Bool :=
  kwargs.all (fun k => params.contains k)

/-- Body of Database.fetch_many (services.py lines 31-35): the query
filters by status only; no limit is applied and no cursor is consumed. -/
def fetch_many {A : Type} (table : List (Ingestion A)) (status : Status) : List (Ingestion A) :=
  table.filter (fun r => r.status == status)

/-- list_ingestions (main.py lines 168-177): bind the keyword arguments of
the fetch_many call; on a binding failure the route raises TypeError (an
unhandled server error), otherwise it returns the fetched records. -/
def list_ingestions {A : Type} (table : List (Ingestion A)) (req : ListIngestionRequest) :
    Except String (List (Ingestion A)) :=
  if python_kwargs_accepted fetch_many_paramNames list_ingestions_callKwargs then
    Except.ok (fetch_many table req.status)
  else
    Except.error "TypeError: fetch_many got an unexpected keyword argument"

/-! ## Pagination cursor parsing (api/src/schemas.py lines 146-163)

The post-init hook of ListIngestionRequest runs

  self.next = json.loads(base64.b64decode(self.next))

and catches exactly UnicodeDecodeError and binascii.Error, turning them
into the RequestValidationError the app maps to HTTP 422.  Neither
json.JSONDecodeError nor the plain ValueError that base64.b64decode
raises on a non-ASCII string is in the except clause, so both escape as
server crashes.  The stdlib collaborators are modelled bytewise:
base64.b64decode on a str first ASCII-encodes it (ValueError on any
character above 127) and then runs the lenient binascii decoder, which
discards non-alphabet bytes, decodes quanta eagerly, stops once padding
completes a quantum, and raises binascii.Error on ill-formed trailing
data; json.loads on bytes runs json.detect_encoding and decodes with the
surrogatepass error handler before scanning, so the decoded text is a
sequence of code points that may include lone surrogates — text is
therefore modelled as a list of code points, not of Lean characters. -/

/-- Value of a standard base64 alphabet character. -/
def b64CharVal (c : Char) : Option Nat :=
  if 'A' ≤ c && c ≤ 'Z' then some (c.toNat - 'A'.toNat)
  else if 'a' ≤ c && c ≤ 'z' then some (c.toNat - 'a'.toNat + 26)
  else if '0' ≤ c && c ≤ '9' then some (c.toNat - '0'.toNat + 52)
  else if c = '+' then some 62
  else if c = '/' then some 63
  else none

/-- The two errors base64.b64decode can raise on a str argument: the
plain ValueError of the ASCII encoding step — not caught by the route —
and the binascii.Error of the base64 decoder — caught. -/
inductive B64Error where
  | valueError : B64Error
  | binasciiError : B64Error
deriving DecidableEq, Repr

/-- The bytes one quantum of two to four base64 values decodes to. -/
def b64quadBytes : List Nat → List Nat
  | [v1, v2] => [v1 * 4 + v2 / 16]
  | [v1, v2, v3] => [v1 * 4 + v2 / 16, (v2 % 16) * 16 + v3 / 4]
  | [v1, v2, v3, v4] =>
    [v1 * 4 + v2 / 16, (v2 % 16) * 16 + v3 / 4, (v3 % 4) * 64 + v4]
  | _ => []

/-- The lenient scan of binascii.a2b_base64: characters outside the
alphabet are discarded; a padding sign is counted only once the current
quantum holds at least two data characters, and the scan stops
successfully — ignoring all remaining input — as soon as padding
completes the quantum; a data character resets the padding count.  At
end of input a leftover quantum (one data character, or two or three
without completed padding) raises binascii.Error. -/
def b64scan : List Char → List Nat → Nat → List Nat → Except B64Error (List Nat)
  | [], quad, _, acc =>
    if quad.isEmpty then Except.ok acc else Except.error B64Error.binasciiError
  | c :: rest, quad, pads, acc =>
    if c = '=' then
      if 2 ≤ quad.length && 4 ≤ quad.length + (pads + 1) then
        Except.ok (acc ++ b64quadBytes quad)
      else if 2 ≤ quad.length then
        b64scan rest quad (pads + 1) acc
      else
        b64scan rest quad pads acc
    else
      match b64CharVal c with
      | some v =>
        if quad.length = 3 then
          b64scan rest [] 0 (acc ++ b64quadBytes (quad ++ [v]))
        else
          b64scan rest (quad ++ [v]) 0 acc
      | none => b64scan rest quad pads acc

/-- base64.b64decode on a str: encode to ASCII — ValueError on any
character above 127 — then run the lenient binascii scan. -/
def b64decode (s : String) : Except B64Error (List Nat) :=
  if s.toList.any (fun c => 128 ≤ c.toNat) then Except.error B64Error.valueError
  else b64scan s.toList [] 0 []

/-- The encodings json.detect_encoding can select. -/
inductive JsonEncoding where
  | utf32bomBE : JsonEncoding
  | utf32bomLE : JsonEncoding
  | utf16bomBE : JsonEncoding
  | utf16bomLE : JsonEncoding
  | utf8sig : JsonEncoding
  | utf16be : JsonEncoding
  | utf16le : JsonEncoding
  | utf32be : JsonEncoding
  | utf32le : JsonEncoding
  | utf8 : JsonEncoding
deriving DecidableEq, Repr

/-- json.detect_encoding: BOM sniffing with utf-32 tried before utf-16
before utf-8-sig, then the null-byte heuristics on inputs of at least
four (or exactly two) bytes; everything else is utf-8. -/
def detect_encoding (b : List Nat) : JsonEncoding :=
  if b.take 4 = [0x00, 0x00, 0xFE, 0xFF] then JsonEncoding.utf32bomBE
  else if b.take 4 = [0xFF, 0xFE, 0x00, 0x00] then JsonEncoding.utf32bomLE
  else if b.take 2 = [0xFE, 0xFF] then JsonEncoding.utf16bomBE
  else if b.take 2 = [0xFF, 0xFE] then JsonEncoding.utf16bomLE
  else if b.take 3 = [0xEF, 0xBB, 0xBF] then JsonEncoding.utf8sig
  else
    match b with
    | b0 :: b1 :: b2 :: b3 :: _ =>
      if b0 = 0 then
        (if b1 ≠ 0 then JsonEncoding.utf16be else JsonEncoding.utf32be)
      else if b1 = 0 then
        (if b2 ≠ 0 || b3 ≠ 0 then JsonEncoding.utf16le else JsonEncoding.utf32le)
      else JsonEncoding.utf8
    | [b0, b1] =>
      if b0 = 0 then JsonEncoding.utf16be
      else if b1 = 0 then JsonEncoding.utf16le
      else JsonEncoding.utf8
    | _ => JsonEncoding.utf8

/-- Is b a UTF-8 continuation byte. -/
def utf8Cont (b : Nat) : Bool := 0x80 ≤ b && b ≤ 0xBF

/-- UTF-8 decoding with the surrogatepass error handler, as json.loads
applies it: strict UTF-8 — overlongs, bad continuations and bytes above
F4 are rejected — except that the three-byte encodings of surrogates
(ED A0 80 through ED BF BF) are passed through as lone surrogate code
points.  none models the re-raised UnicodeDecodeError. -/
def utf8spDecode : List Nat → Option (List Nat)
  | [] => some []
  | b :: rest =>
    if b < 0x80 then
      (utf8spDecode rest).map (fun cs => b :: cs)
    else if 0xC2 ≤ b && b ≤ 0xDF then
      match rest with
      | b2 :: rest2 =>
        if utf8Cont b2 then
          (utf8spDecode rest2).map (fun cs => ((b - 0xC0) * 64 + (b2 - 0x80)) :: cs)
        else none
      | [] => none
    else if 0xE0 ≤ b && b ≤ 0xEF then
      match rest with
      | b2 :: b3 :: rest3 =>
        let lowOk := if b = 0xE0 then 0xA0 ≤ b2 && b2 ≤ 0xBF else utf8Cont b2
        if lowOk && utf8Cont b3 then
          (utf8spDecode rest3).map (fun cs =>
            ((b - 0xE0) * 4096 + (b2 - 0x80) * 64 + (b3 - 0x80)) :: cs)
        else none
      | _ => none
    else if 0xF0 ≤ b && b ≤ 0xF4 then
      match rest with
      | b2 :: b3 :: b4 :: rest4 =>
        let lowOk :=
          if b = 0xF0 then 0x90 ≤ b2 && b2 ≤ 0xBF
          else if b = 0xF4 then 0x80 ≤ b2 && b2 ≤ 0x8F
          else utf8Cont b2
        if lowOk && utf8Cont b3 && utf8Cont b4 then
          (utf8spDecode rest4).map (fun cs =>
            ((b - 0xF0) * 262144 + (b2 - 0x80) * 4096 + (b3 - 0x80) * 64 + (b4 - 0x80)) :: cs)
        else none
      | _ => none
    else none

/-- Group bytes into 16-bit units; none models the UnicodeDecodeError on
truncated data (an odd byte count), which surrogatepass re-raises. -/
def utf16units (isLE : Bool) : List Nat → Option (List Nat)
  | [] => some []
  | [_] => none
  | b0 :: b1 :: rest =>
    let u := if isLE then b0 + b1 * 256 else b0 * 256 + b1
    (utf16units isLE rest).map (fun us => u :: us)

/-- Combine UTF-16 units into code points: a high surrogate followed by a
low surrogate pairs up; with surrogatepass every lone surrogate is passed
through, so this step never fails. -/
def utf16pair : List Nat → List Nat
  | [] => []
  | [u] => [u]
  | u :: u2 :: rest2 =>
    if 0xD800 ≤ u && u ≤ 0xDBFF then
      if 0xDC00 ≤ u2 && u2 ≤ 0xDFFF then
        (0x10000 + (u - 0xD800) * 0x400 + (u2 - 0xDC00)) :: utf16pair rest2
      else u :: utf16pair (u2 :: rest2)
    else u :: utf16pair (u2 :: rest2)

/-- UTF-32 decoding with surrogatepass: 32-bit units read in the given
byte order; none models the re-raised UnicodeDecodeError on truncated
data or a unit above 0x10FFFF; surrogate units pass through. -/
def utf32decode (isLE : Bool) : List Nat → Option (List Nat)
  | [] => some []
  | b0 :: b1 :: b2 :: b3 :: rest =>
    let u :=
      if isLE then b0 + b1 * 256 + b2 * 65536 + b3 * 16777216
      else b3 + b2 * 256 + b1 * 65536 + b0 * 16777216
    if u ≤ 0x10FFFF then (utf32decode isLE rest).map (fun us => u :: us) else none
  | _ => none

/-- The text json.loads builds from a bytes argument: detect_encoding,
BOM stripping where the detected name implies it, then the codec decode
with surrogatepass.  none models the UnicodeDecodeError the except
clause of the route catches. -/
def json_bytes_text (b : List Nat) : Option (List Nat) :=
  match detect_encoding b with
  | JsonEncoding.utf32bomBE => utf32decode false (b.drop 4)
  | JsonEncoding.utf32bomLE => utf32decode true (b.drop 4)
  | JsonEncoding.utf16bomBE => (utf16units false (b.drop 2)).map utf16pair
  | JsonEncoding.utf16bomLE => (utf16units true (b.drop 2)).map utf16pair
  | JsonEncoding.utf8sig => utf8spDecode (b.drop 3)
  | JsonEncoding.utf16be => (utf16units false b).map utf16pair
  | JsonEncoding.utf16le => (utf16units true b).map utf16pair
  | JsonEncoding.utf32be => utf32decode false b
  | JsonEncoding.utf32le => utf32decode true b
  | JsonEncoding.utf8 => utf8spDecode b

/-- JSON insignificant whitespace, over code points. -/
def jsonSkipWs : List Nat → List Nat
  | c :: rest =>
    if c = 0x20 || c = 0x09 || c = 0x0A || c = 0x0D then jsonSkipWs rest
    else c :: rest
  | [] => []

/-- Consume an exact literal. -/
def jsonLit : List Nat → List Nat → Option (List Nat)
  | [], cs => some cs
  | l :: ls, c :: cs => if l = c then jsonLit ls cs else none
  | _ :: _, [] => none

/-- Is c a decimal digit code point. -/
def cpDigit (c : Nat) : Bool := 0x30 ≤ c && c ≤ 0x39

/-- Is c a JSON hex digit code point. -/
def jsonHexDigit (c : Nat) : Bool :=
  cpDigit c || (0x61 ≤ c && c ≤ 0x66) || (0x41 ≤ c && c ≤ 0x46)

/-- Consume the body of a JSON string after the opening quote: the
scanner of the json module terminates the string at a quote, processes
backslash escapes, rejects control characters below 0x20, and accepts
every other code point — lone surrogates included. -/
def jsonStringBody : List Nat → Option (List Nat)
  | [] => none
  | c :: rest =>
    if c = 0x22 then some rest
    else if c = 0x5C then
      match rest with
      | [] => none
      | e :: rest2 =>
        if e = 0x22 || e = 0x5C || e = 0x2F || e = 0x62 || e = 0x66 || e = 0x6E ||
            e = 0x72 || e = 0x74 then
          jsonStringBody rest2
        else if e = 0x75 then
          match rest2 with
          | h1 :: h2 :: h3 :: h4 :: rest3 =>
            if jsonHexDigit h1 && jsonHexDigit h2 && jsonHexDigit h3 && jsonHexDigit h4 then
              jsonStringBody rest3
            else none
          | _ => none
        else none
    else if c < 0x20 then none
    else jsonStringBody rest

/-- Consume one or more digits. -/
def jsonDigits1 : List Nat → Option (List Nat)
  | c :: rest => if cpDigit c then some (rest.dropWhile cpDigit) else none
  | [] => none

/-- Optional fraction then optional exponent of a JSON number. -/
def jsonNumberTail (cs : List Nat) : Option (List Nat) :=
  let afterFrac :=
    match cs with
    | 0x2E :: rest => jsonDigits1 rest
    | _ => some cs
  match afterFrac with
  | none => none
  | some cs2 =>
    match cs2 with
    | 0x65 :: rest | 0x45 :: rest =>
      match rest with
      | 0x2B :: rest2 | 0x2D :: rest2 => jsonDigits1 rest2
      | _ => jsonDigits1 rest
    | _ => some cs2

/-- Consume a JSON number after an optional leading minus sign: the
grammar of the json module scanner (no leading zeros, optional fraction
and exponent). -/
def jsonNumberBody (cs : List Nat) : Option (List Nat) :=
  match cs with
  | [] => none
  | c :: rest =>
    if c = 0x30 then
      jsonNumberTail rest
    else if cpDigit c then
      jsonNumberTail (rest.dropWhile cpDigit)
    else none

mutual

/-- Consume one JSON value, returning the remaining input.  The grammar
of json.loads, including its NaN / Infinity / -Infinity extensions.
The fuel bounds recursion depth; any fuel of at least four times the
input length plus four never starves, since every nesting step first
consumes at least one code point. -/
def jsonValue : Nat → List Nat → Option (List Nat)
  | 0, _ => none
  | fuel + 1, cs =>
    match jsonSkipWs cs with
    | [] => none
    | c :: rest =>
      if c = 0x22 then jsonStringBody rest
      else if c = 0x7B then jsonMembers fuel (jsonSkipWs rest) true
      else if c = 0x5B then jsonElements fuel (jsonSkipWs rest) true
      else if c = 0x74 then jsonLit [0x72, 0x75, 0x65] rest
      else if c = 0x66 then jsonLit [0x61, 0x6C, 0x73, 0x65] rest
      else if c = 0x6E then jsonLit [0x75, 0x6C, 0x6C] rest
      else if c = 0x4E then jsonLit [0x61, 0x4E] rest
      else if c = 0x49 then jsonLit [0x6E, 0x66, 0x69, 0x6E, 0x69, 0x74, 0x79] rest
      else if c = 0x2D then
        match rest with
        | 0x49 :: rest2 => jsonLit [0x6E, 0x66, 0x69, 0x6E, 0x69, 0x74, 0x79] rest2
        | _ => jsonNumberBody rest
      else jsonNumberBody (c :: rest)

/-- Consume the members of a JSON object after the opening brace (the
whitespace after the brace already skipped); the flag marks the first
member, where a closing brace ends an empty object. -/
def jsonMembers : Nat → List Nat → Bool → Option (List Nat)
  | _, [], _ => none
  | 0, _, _ => none
  | fuel + 1, c :: rest, isFirst =>
    if c = 0x7D && isFirst then some rest
    else if c = 0x22 then
      match jsonStringBody rest with
      | none => none
      | some afterKey =>
        match jsonSkipWs afterKey with
        | 0x3A :: afterColon =>
          match jsonValue fuel afterColon with
          | none => none
          | some afterVal =>
            match jsonSkipWs afterVal with
            | 0x2C :: afterComma => jsonMembers fuel (jsonSkipWs afterComma) false
            | 0x7D :: afterClose => some afterClose
            | _ => none
        | _ => none
    else none

/-- Consume the elements of a JSON array after the opening bracket (the
whitespace after the bracket already skipped); the flag marks the first
element, where a closing bracket ends an empty array. -/
def jsonElements : Nat → List Nat → Bool → Option (List Nat)
  | _, [], _ => none
  | 0, _, _ => none
  | fuel + 1, c :: rest, isFirst =>
    if c = 0x5D && isFirst then some rest
    else
      match jsonValue fuel (c :: rest) with
      | none => none
      | some afterVal =>
        match jsonSkipWs afterVal with
        | 0x2C :: afterComma => jsonElements fuel (jsonSkipWs afterComma) false
        | 0x5D :: afterClose => some afterClose
        | _ => none

end

/-- Does the json.loads scanner accept the text: one value, then only
trailing whitespace (otherwise it raises JSONDecodeError). -/
def json_loads_ok (text : List Nat) : Bool :=
  match jsonValue (4 * text.length + 4) text with
  | some rest => (jsonSkipWs rest).isEmpty
  | none => false

/-- Outcome of the post-init hook of ListIngestionRequest on the next
query parameter (schemas.py lines 146-163). -/
inductive CursorParse where
  | noCursor : CursorParse
  | parsed : List Nat → CursorParse
  | invalidCursor : CursorParse
  | uncaughtJsonError : CursorParse
  | uncaughtValueError : CursorParse
deriving DecidableEq, Repr

/-- The post-init hook (schemas.py lines 146-163): a missing cursor is
left alone; otherwise run json.loads(base64.b64decode(next)).  The
except clause catches UnicodeDecodeError and binascii.Error, raising the
RequestValidationError the app maps to HTTP 422 (invalidCursor); the
plain ValueError of base64.b64decode on a non-ASCII cursor and the
JSONDecodeError of json.loads are not caught and escape as server
crashes.  On success the decoded JSON text is kept. -/
def post_init_post_parse (next : Option String) : CursorParse :=
  match next with
  | none => CursorParse.noCursor
  | some s =>
    match b64decode s with
    | Except.error B64Error.valueError => CursorParse.uncaughtValueError
    | Except.error B64Error.binasciiError => CursorParse.invalidCursor
    | Except.ok bytes =>
      match json_bytes_text bytes with
      | none => CursorParse.invalidCursor
      | some text =>
        if json_loads_ok text then CursorParse.parsed text
        else CursorParse.uncaughtJsonError

/-- A cursor string round-trips as base64-encoded JSON: it base64-decodes,
the bytes decode under the detected encoding, and the text is accepted by
the json.loads scanner. -/
def cursor_round_trips (s : String) : Bool :=
  match b64decode s with
  | Except.error _ => false
  | Except.ok bytes =>
    match json_bytes_text bytes with
    | none => false
    | some text => json_loads_ok text


/-! ## Date extraction from filenames (api/src/validators.py lines 105-178)

The source tries four regexes in order, each an underscore followed by a
captured digit group: YYYY-MM-DD, then eight, six and four digits.  For
the first pattern with any findall hits, every hit is parsed with
strptime; the parsed datetimes drive the outcome.  Dates are modelled as
year / month / day triples (the parsed times are always midnight). -/

structure PyDate where
  year : Nat
  month : Nat
  day : Nat
deriving DecidableEq, Repr

/-- Gregorian leap year, as datetime uses. -/
def isLeapYear (y : Nat) : Bool :=
  (y % 4 = 0 && y % 100 ≠ 0) || y % 400 = 0

/-- Days in a month, as datetime uses. -/
def daysInMonth (y m : Nat) : Nat :=
  if m = 2 then (if isLeapYear y then 29 else 28)
  else if m = 4 || m = 6 || m = 9 || m = 11 then 30
  else 31

/-- Comparison key realizing the datetime order on valid dates
(lexicographic on year, month, day; months and days stay below 100). -/
def PyDate.key (d : PyDate) : Nat :=
  d.year * 10000 + d.month * 100 + d.day

/-- The four regex strategies of extract_dates, in source order
(validators.py lines 133-138). -/
inductive DatePattern where
  | ymdDashed : DatePattern
  | ymd8 : DatePattern
  | ym6 : DatePattern
  | y4 : DatePattern
deriving DecidableEq, Repr

/-- Match k digits at the front of the input, returning them and the rest. -/
def takeDigits : Nat → List Char → Option (List Char × List Char)
  | 0, cs => some ([], cs)
  | _ + 1, [] => none
  | k + 1, c :: cs =>
    if c.isDigit then
      (takeDigits k cs).map (fun (ds, rest) => (c :: ds, rest))
    else none

/-- Match the captured group of one pattern right after an underscore,
returning the group text and the remaining input. -/
def matchGroupAt (p : DatePattern) (cs : List Char) : Option (List Char × List Char) :=
  match p with
  | .ymdDashed =>
    match takeDigits 4 cs with
    | none => none
    | some (y, rest1) =>
      match rest1 with
      | '-' :: rest2 =>
        match takeDigits 2 rest2 with
        | none => none
        | some (m, rest3) =>
          match rest3 with
          | '-' :: rest4 =>
            match takeDigits 2 rest4 with
            | none => none
            | some (d, rest5) => some (y ++ '-' :: m ++ '-' :: d, rest5)
          | _ => none
      | _ => none
  | .ymd8 => takeDigits 8 cs
  | .ym6 => takeDigits 6 cs
  | .y4 => takeDigits 4 cs

/-- One step bound for the findall scan. -/
def findallAux (p : DatePattern) : Nat → List Char → List (List Char)
  | 0, _ => []
  | _ + 1, [] => []
  | fuel + 1, c :: rest =>
    if c = '_' then
      match matchGroupAt p rest with
      | some (grp, rest2) => grp :: findallAux p fuel rest2
      | none => findallAux p fuel rest
    else findallAux p fuel rest

/-- re.findall of one pattern over the filename: scan left to right,
taking non-overlapping matches, each anchored at an underscore.  The fuel
equals the input length, which the scan can never exceed since every step
consumes at least one character. -/
def findall (p : DatePattern) (filename : String) : List (List Char) :=
  findallAux p filename.toList.length filename.toList

/-- Numeric value of a digit group. -/
def digitsToNat (cs : List Char) : Nat :=
  cs.foldl (fun acc c => acc * 10 + (c.toNat - '0'.toNat)) 0

/-- datetime.strptime on a captured group, per pattern format
(validators.py lines 134-137): year between 1 and 9999, month 1-12, day
within the month; the six and four digit formats default day (and month)
to 1.  none models the ValueError strptime raises on an out-of-range
component. -/
def strptime (p : DatePattern) (grp : List Char) : Option PyDate :=
  let build (y m d : Nat) : Option PyDate :=
    if 1 ≤ y && y ≤ 9999 && 1 ≤ m && m ≤ 12 && 1 ≤ d && d ≤ daysInMonth y m then
      some { year := y, month := m, day := d }
    else none
  match p with
  | .ymdDashed =>
    match grp with
    | [y1, y2, y3, y4c, _, m1, m2, _, d1, d2] =>
      build (digitsToNat [y1, y2, y3, y4c]) (digitsToNat [m1, m2]) (digitsToNat [d1, d2])
    | _ => none
  | .ymd8 =>
    match grp with
    | [y1, y2, y3, y4c, m1, m2, d1, d2] =>
      build (digitsToNat [y1, y2, y3, y4c]) (digitsToNat [m1, m2]) (digitsToNat [d1, d2])
    | _ => none
  | .ym6 =>
    match grp with
    | [y1, y2, y3, y4c, m1, m2] =>
      build (digitsToNat [y1, y2, y3, y4c]) (digitsToNat [m1, m2]) 1
    | _ => none
  | .y4 =>
    match grp with
    | [y1, y2, y3, y4c] => build (digitsToNat [y1, y2, y3, y4c]) 1 1
    | _ => none

/-- The strategy list DATE_REGEX_STRATEGIES in source order. -/
def DATE_REGEX_STRATEGIES : List DatePattern :=
  [DatePattern.ymdDashed, DatePattern.ymd8, DatePattern.ym6, DatePattern.y4]

/-- The loop of validators.py lines 141-150: the first pattern whose
findall is nonempty, together with its hits.  none when every pattern
finds nothing. -/
def first_nonempty_findall (filename : String) : Option (DatePattern × List (List Char)) :=
  (DATE_REGEX_STRATEGIES.map (fun p => (p, findall p filename))).find?
    (fun pr => !pr.2.isEmpty)

/-- Parse every hit with strptime; the first failure aborts the whole
extraction (the ValueError propagates out of extract_dates). -/
def mapStrptime (p : DatePattern) : List (List Char) → Option (List PyDate)
  | [] => some []
  | g :: gs =>
    match strptime p g with
    | none => none
    | some d => (mapStrptime p gs).map (fun ds => d :: ds)

/-- The dates list built by the loop: parse every hit of the first
matching pattern; a strptime failure aborts extract_dates with ValueError
(the error case).  With no matching pattern the list stays empty. -/
def found_dates (filename : String) : Except Unit (List PyDate) :=
  match first_nonempty_findall filename with
  | none => Except.ok []
  | some (p, hits) =>
    match mapStrptime p hits with
    | none => Except.error ()
    | some dates => Except.ok dates

/-- Declared granularity: the INTERVAL literal of validators.py line 105. -/
inductive Interval where
  | month : Interval
  | year : Interval
deriving DecidableEq, Repr

/-- calculate_year_range (validators.py lines 109-112): January 1 through
December 31 of the same year. -/
def calculate_year_range (d : PyDate) : PyDate × PyDate :=
  ({ d with month := 1, day := 1 }, { d with month := 12, day := 31 })

/-- calculate_month_range (validators.py lines 115-118): the first of the
month through relativedelta(day=31), which clamps to the actual last day
of that month. -/
def calculate_month_range (d : PyDate) : PyDate × PyDate :=
  ({ d with day := 1 }, { d with day := daysInMonth d.year d.month })

/-- DATETIME_RANGE_METHODS dispatch (validators.py lines 121-124). -/
def datetime_range_method : Interval → PyDate → PyDate × PyDate
  | .month => calculate_month_range
  | .year => calculate_year_range

/-- Result of extract_dates: a (start, end, None) range, a (None, None,
single) instant, the NoDateFound exception of lines 155-159, or an
uncaught strptime ValueError. -/
inductive ExtractOutcome where
  | range : PyDate → PyDate → ExtractOutcome
  | single : PyDate → ExtractOutcome
  | noDateFound : ExtractOutcome
  | strptimeError : ExtractOutcome
deriving DecidableEq, Repr

/-- The datetime order as a relation on the comparison key. -/
def dateLe (a b : PyDate) : Prop := PyDate.key a ≤ PyDate.key b

instance : DecidableRel dateLe := fun a b => Nat.decLe (PyDate.key a) (PyDate.key b)

instance : IsTotal PyDate dateLe := ⟨fun a b => Nat.le_total a.key b.key⟩

instance : IsTrans PyDate dateLe := ⟨fun _ _ _ => Nat.le_trans⟩

/-- extract_dates (validators.py lines 127-178): find all hits of the
first matching pattern and parse them; zero dates raises NoDateFound;
more than one date is sorted and reported as the (first, last) range
ignoring the declared granularity; a single date is expanded through the
granularity table when one is declared, else returned as an instant. -/
def extract_dates (filename : String) (datetime_range : Option Interval) : ExtractOutcome :=
  match found_dates filename with
  | Except.error _ => ExtractOutcome.strptimeError
  | Except.ok dates =>
    if dates.length = 0 then
      ExtractOutcome.noDateFound
    else if dates.length > 1 then
      match List.insertionSort dateLe dates with
      | [] => ExtractOutcome.noDateFound
      | d :: rest => ExtractOutcome.range d (rest.getLastD d)
    else
      match dates with
      | [d] =>
        match datetime_range with
        | some interval =>
          let (startDate, endDate) := datetime_range_method interval d
          ExtractOutcome.range startDate endDate
        | none => ExtractOutcome.single d
      | _ => ExtractOutcome.noDateFound

/-- The outcome extract_dates computes once the parsed dates list is in
hand (the body of validators.py lines 152-178). -/
def outcome_of_dates (datetime_range : Option Interval) (dates : List PyDate) :
    ExtractOutcome :=
  if dates.length = 0 then
    ExtractOutcome.noDateFound
  else if dates.length > 1 then
    match List.insertionSort dateLe dates with
    | [] => ExtractOutcome.noDateFound
    | d :: rest => ExtractOutcome.range d (rest.getLastD d)
  else
    match dates with
    | [d] =>
      match datetime_range with
      | some interval =>
        let (startDate, endDate) := datetime_range_method interval d
        ExtractOutcome.range startDate endDate
      | none => ExtractOutcome.single d
    | _ => ExtractOutcome.noDateFound

/-! ## Dataset sample-file validation (api/src/schemas.py lines 271-316)

Discovery items are a discriminated union of the s3 and cmr variants
(schemas.py lines 197-228).  The filename regex of an s3 item is embedded
as the Boolean matcher the Python code obtains from re.search of that
stored pattern, so a discovery item carries the semantics of its regex
rather than its text. -/

/-- One discovery item.  For the s3 variant: prefixStr embeds the field
named prefix, filename_regex s is the truth of re.search(pattern, s), and
datetime_range is the declared granularity.  The cmr variant carries no
field the validator reads. -/
inductive DiscoveryItem where
  | s3 : (prefixStr : String) → (bucket : String) → (filename_regex : String → Bool) →
      (datetime_range : Option Interval) → DiscoveryItem
  | cmr : DiscoveryItem

/-- Python str.split on the slash separator: every piece, empty pieces
preserved. -/
def splitOnSlash : List Char → List (List Char)
  | [] => [[]]
  | c :: rest =>
    if c = '/' then [] :: splitOnSlash rest
    else
      match splitOnSlash rest with
      | g :: gs => (c :: g) :: gs
      | [] => [[c]]

/-- Python slash-join of pieces. -/
def joinSlash : List (List Char) → List Char
  | [] => []
  | [g] => g
  | g :: gs => g ++ '/' :: joinSlash gs

/-- The basename used by the validator: fname.split on slash, last piece. -/
def basenameOf (fname : String) : String :=
  String.mk ((splitOnSlash fname.toList).getLastD fname.toList)

/-- The string the prefix is compared against: the slash-separated pieces
of the sample path with the first three dropped and rejoined — for an
s3://bucket/key URL this is the key (schemas.py line 296). -/
def keyPartOf (fname : String) : String :=
  String.mk (joinSlash ((splitOnSlash fname.toList).drop 3))

/-- Python str.startswith. -/
def startsWithStr (s pre : String) : Bool :=
  List.isPrefixOf pre.toList s.toList

/-- Does extract_dates raise for this filename and granularity (any
exception is caught by the validator at schemas.py lines 300-307). -/
def extractDatesRaises (fname : String) (interval : Interval) : Bool :=
  match extract_dates fname (some interval) with
  | ExtractOutcome.noDateFound => true
  | ExtractOutcome.strptimeError => true
  | _ => false

/-- Outcome of COGDataset.check_sample_files. -/
inductive SampleFilesResult where
  | accepted : SampleFilesResult
  | dateError : String → SampleFilesResult
  | mismatch : List String → SampleFilesResult
  | skippedNoItems : SampleFilesResult
deriving DecidableEq, Repr

/-- Inner loop over discovery items for one sample file (schemas.py lines
290-308): an s3 item whose regex matches the basename and whose prefix
matches the key part marks the file found; if such an item also declares
a datetime_range and extract_dates raises, the whole validator raises at
once, naming only this file.  The loop does not stop at the first match. -/
def sampleItemLoop (fname : String) : List DiscoveryItem → Bool → Except String Bool
  | [], found => Except.ok found
  | item :: rest, found =>
    match item with
    | DiscoveryItem.cmr => sampleItemLoop fname rest found
    | DiscoveryItem.s3 pfx _ rgx dtr =>
      if rgx (basenameOf fname) && startsWithStr (keyPartOf fname) pfx then
        match dtr with
        | some interval =>
          if extractDatesRaises fname interval then Except.error fname
          else sampleItemLoop fname rest true
        | none => sampleItemLoop fname rest true
      else sampleItemLoop fname rest found

/-- Outer loop over the sample files (schemas.py lines 288-310),
accumulating the files matched by no item. -/
def sampleFileLoop (items : List DiscoveryItem) :
    List String → List String → Except String (List String)
  | [], invalid => Except.ok invalid
  | f :: fs, invalid =>
    match sampleItemLoop f items false with
    | Except.error fname => Except.error fname
    | Except.ok true => sampleFileLoop items fs invalid
    | Except.ok false => sampleFileLoop items fs (invalid ++ [f])

/-- Is the item the s3 variant (the discovery discriminator equals s3). -/
def DiscoveryItem.isS3 : DiscoveryItem → Bool
  | DiscoveryItem.s3 _ _ _ _ => true
  | DiscoveryItem.cmr => false

/-- COGDataset.check_sample_files (schemas.py lines 277-316): with no
discovery items the validator returns early; with no s3 item among them
it accepts without looking at the samples; otherwise it runs the two
loops, raising for the first date-extraction failure, then raising with
the full list of unmatched files when that list is nonempty. -/
def check_sample_files (discovery_items : List DiscoveryItem) (sample_files : List String) :
    SampleFilesResult :=
  if discovery_items.isEmpty then
    SampleFilesResult.skippedNoItems
  else if !(discovery_items.any DiscoveryItem.isS3) then
    SampleFilesResult.accepted
  else
    match sampleFileLoop discovery_items sample_files [] with
    | Except.error fname => SampleFilesResult.dateError fname
    | Except.ok invalid =>
      if !invalid.isEmpty then SampleFilesResult.mismatch invalid
      else SampleFilesResult.accepted

/-- Stated from the claim, for comparison with the code: a sample file is
admissible when at least one object-storage discovery item has the file
start with that item prefix, the basename match that item regex, and date
extraction succeed whenever that item declares a granularity; the claim
accepts exactly when every sample file is admissible. -/
def claim_admissible (items : List DiscoveryItem) (fname : String) : Bool :=
  items.any (fun item =>
    match item with
    | DiscoveryItem.s3 pfx _ rgx dtr =>
      startsWithStr fname pfx && rgx (basenameOf fname) &&
        (match dtr with
         | some interval => !extractDatesRaises fname interval
         | none => true)
    | DiscoveryItem.cmr => false)

/-- Acceptance as the claim states it. -/
def claim_accepts (items : List DiscoveryItem) (files : List String) : Bool :=
  files.all (claim_admissible items)

/-! ## Dataset collection id validation (api/src/schemas.py lines 241-248) -/

/-- Python str.split on the dash separator. -/
def splitOnDash : List Char → List (List Char)
  | [] => [[]]
  | c :: rest =>
    if c = '-' then [] :: splitOnDash rest
    else
      match splitOnDash rest with
      | g :: gs => (c :: g) :: gs
      | [] => [[c]]

/-- Is c a lowercase ASCII letter. -/
def isLowerAZ (c : Char) : Bool := 'a' ≤ c && c ≤ 'z'

/-- Embeds re.match of the pattern of lowercase runs joined by dashes
against the start of the string (no anchor at the end): since the pattern
only requires one leading lowercase letter and everything after it is
optional, an anchored-at-start match exists exactly when the first
character is a lowercase letter. -/
def re_match_id (s : String) : Bool :=
  match s.toList with
  | [] => false
  | c :: _ => isLowerAZ c

/-- Dataset.check_id (schemas.py lines 242-248): reject with ValueError
when re.match finds nothing, else return the id unchanged. -/
def check_id (collection : String) : Except String String :=
  if !re_match_id collection then
    Except.error "Invalid id - id must be all lowercase, with optional - delimiters"
  else
    Except.ok collection

/-- The property the claim states: the entire id consists of lowercase
runs joined by single dashes — equivalently, splitting on the dash yields
nonempty all-lowercase pieces. -/
def fullmatch_id (s : String) : Bool :=
  let pieces := splitOnDash s.toList
  !s.toList.isEmpty && pieces.all (fun piece => !piece.isEmpty && piece.all isLowerAZ)

/-! ## Derived predicates and concrete fixtures used by the theorems -/

/-- The match condition the inner sample-file loop tests for one item
(schemas.py lines 292-298): the s3 variant whose regex matches the
basename and whose prefix starts the key part. -/
def code_matches (fname : String) : DiscoveryItem → Bool
  | DiscoveryItem.s3 pfx _ rgx _ =>
    rgx (basenameOf fname) && startsWithStr (keyPartOf fname) pfx
  | DiscoveryItem.cmr => false

/-- A sample file is matched by some discovery item, as the code tests it. -/
def code_admissible (items : List DiscoveryItem) (fname : String) : Bool :=
  items.any (code_matches fname)

/-- One item makes the validator raise for this file: the item matches,
declares a granularity, and date extraction raises (schemas.py lines
299-307). -/
def item_date_conflict (fname : String) : DiscoveryItem → Bool
  | DiscoveryItem.s3 pfx _ rgx (some interval) =>
    rgx (basenameOf fname) && startsWithStr (keyPartOf fname) pfx &&
      extractDatesRaises fname interval
  | _ => false

/-- Some item makes the validator raise for this file. -/
def code_date_conflict (items : List DiscoveryItem) (fname : String) : Bool :=
  items.any (item_date_conflict fname)

/-- Exactly one hit was found for the first matching pattern and it parses
to the date d. -/
def found_single (filename : String) (d : PyDate) : Prop :=
  ∃ p s, first_nonempty_findall filename = some (p, [s]) ∧ strptime p s = some d

/-- A queued ingestion record used as a concrete fixture. -/
def recQueued : Ingestion Nat :=
  { id := "item-1", status := Status.queued, message := none, created_by := "user",
    created_at := 1, updated_at := 1, item := 0 }

/-- A record already in a terminal state. -/
def recDone : Ingestion Nat :=
  { recQueued with id := "item-2", status := Status.succeeded }

/-- A queued record carrying a leftover message. -/
def recWithMessage : Ingestion Nat :=
  { recQueued with id := "item-3", message := some "stale note" }

/-- A concrete s3 discovery item: prefix foo/, the default regex that
matches every basename, no granularity. -/
def cexItem : DiscoveryItem :=
  DiscoveryItem.s3 "foo/" "bucket" (fun _ => true) none

/-! ## Claim theorems -/

/-- C4: the claim says a string matching no member is mapped to an unknown
sentinel and construction never rejects.  The code is wrong: the fallback
hook returns a member named unknown that the enumeration does not declare,
so Status construction on an unrecognized string raises AttributeError
(modelled as none); case-insensitive normalization of the five declared
members does work as the claim says. -/
theorem c4_status_unknown_member_missing :
    statusOfString "bogus" = none
  ∧ statusOfString "QUEUED" = some Status.queued
  ∧ statusOfString "Cancelled" = some Status.cancelled
  ∧ statusOfString "succeeded" = some Status.succeeded := by decide

/-- C9: the claim says the collection id is accepted exactly when the
whole id matches lowercase runs joined by dashes.  The code only anchors
the regex at the start (re.match with no end anchor), so the id a1 is
accepted although the full pattern rejects it; ids failing even the
prefix match, like 9x, are rejected as the claim says. -/
theorem c9_check_id_unanchored :
    check_id "a1" = Except.ok "a1"
  ∧ fullmatch_id "a1" = false
  ∧ check_id "landsat-c" = Except.ok "landsat-c"
  ∧ fullmatch_id "landsat-c" = true
  ∧ check_id "9x" =
      Except.error "Invalid id - id must be all lowercase, with optional - delimiters" := by
  decide

/-- C6: the claim describes limit-bounded, cursor-resumable listing.  The
code cannot perform it: the route passes the keywords next and limit to
Database.fetch_many, which accepts only status, so every list call raises
TypeError and no limit or cursor is ever applied. -/
theorem c6_fetch_many_type_error :
    python_kwargs_accepted fetch_many_paramNames list_ingestions_callKwargs = false
  ∧ ∀ (table : List (Ingestion Nat)) (req : ListIngestionRequest),
      list_ingestions table req =
        Except.error "TypeError: fetch_many got an unexpected keyword argument" := by
  refine ⟨by decide, fun table req => ?_⟩
  unfold list_ingestions
  rw [if_neg]
  intro h
  exact absurd h (by decide)

/-- C5: cancellation succeeds and moves the record to cancelled exactly
when its status is queued; for any other status the route fails with the
HTTP 400 invalid-state error and returns with the store untouched, so the
stored status is unchanged. -/
theorem c5_cancel_spec {A : Type} (ingestion : Ingestion A) (db : List (Ingestion A)) (now : Nat) :
    (ingestion.status = Status.queued →
      cancel_ingestion ingestion db now =
        (Except.ok { ingestion with status := Status.cancelled, updated_at := now },
         dbWrite db { ingestion with status := Status.cancelled, updated_at := now }))
  ∧ (ingestion.status ≠ Status.queued →
      cancel_ingestion ingestion db now =
        (Except.error { status_code := 400,
                        detail := "Unable to delete ingestion if status is not queued" },
         db)) := by
  constructor
  · intro h
    unfold cancel_ingestion
    rw [if_neg (fun hne => hne h)]
    rfl
  · intro h
    unfold cancel_ingestion
    rw [if_pos h]

/-- C5 witness: a queued record is cancelled; a succeeded record is
rejected with HTTP 400 and the store comes back unchanged. -/
theorem c5_cancel_witness :
    cancel_ingestion recQueued [recQueued] 5 =
      (Except.ok { recQueued with status := Status.cancelled, updated_at := 5 },
       dbWrite [recQueued] { recQueued with status := Status.cancelled, updated_at := 5 })
  ∧ cancel_ingestion recDone [recDone] 5 =
      (Except.error { status_code := 400,
                      detail := "Unable to delete ingestion if status is not queued" },
       [recDone]) :=
  ⟨(c5_cancel_spec recQueued [recQueued] 5).1 (by decide),
   (c5_cancel_spec recDone [recDone] 5).2 (by decide)⟩

/-- C10: when the bulk load succeeds, the write-back puts message = null
on every record of the batch, erasing whatever message was stored before;
the same value is applied uniformly since update_dynamodb writes the one
message argument to the whole batch. -/
theorem c10_success_erases_message {A : Type} (records : List (Ingestion A)) (now : Nat) :
    (∀ w ∈ handler records (Except.ok ()) now,
        w.status = Status.succeeded ∧ w.message = none)
  ∧ (∀ r ∈ get_queued_ingestions records,
        { r with status := Status.succeeded, message := none, updated_at := now }
          ∈ handler records (Except.ok ()) now) := by
  by_cases hb : (get_queued_ingestions records).isEmpty
  · constructor
    · intro w hw
      rw [handler, if_pos hb] at hw
      exact absurd hw (List.not_mem_nil w)
    · intro r hr
      rw [List.isEmpty_iff] at hb
      rw [hb] at hr
      exact absurd hr (List.not_mem_nil r)
  · have hh : handler records (Except.ok ()) now =
        update_dynamodb (get_queued_ingestions records) Status.succeeded none now := by
      rw [handler, if_neg hb]
    constructor
    · intro w hw
      rw [hh] at hw
      unfold update_dynamodb at hw
      obtain ⟨r, _, hr⟩ := List.mem_map.mp hw
      rw [← hr]
      exact ⟨rfl, rfl⟩
    · intro r hr
      rw [hh]
      exact List.mem_map_of_mem _ hr

/-- C10 witness: a queued record carrying a stale message is written back
with its message erased after a successful load. -/
theorem c10_success_erases_message_witness :
    ({ recWithMessage with status := Status.succeeded, message := none, updated_at := 7 }
        ∈ handler [recWithMessage] (Except.ok ()) 7)
  ∧ recWithMessage.message = some "stale note" :=
  ⟨(c10_success_erases_message [recWithMessage] 7).2 recWithMessage (by decide), by decide⟩

/-- C1 counterexample: the claim demands a non-empty message on every
failed write-back, but the message written is exactly str(e); for an
exception whose text is empty the single batch record is written back
failed with the empty message. -/
theorem c1_empty_message_counterexample :
    (handler [recQueued] (Except.error "") 5).map (fun w => (w.status, w.message))
      = [(Status.failed, some "")] := by decide

/-- C1 as amended: on any exception e from the bulk load every record of
the batch is written back failed with message = str(e) — non-empty
whenever the exception text is non-empty — and on success every record is
written back succeeded; no written record carries status started. -/
theorem c1_batch_writeback {A : Type} (records : List (Ingestion A))
    (loadResult : Except String Unit) (now : Nat) :
    (∀ e, loadResult = Except.error e →
        (∀ w ∈ handler records loadResult now,
            w.status = Status.failed ∧ w.message = some e ∧ (e ≠ "" → w.message ≠ some ""))
      ∧ ∀ r ∈ get_queued_ingestions records,
          { r with status := Status.failed, message := some e, updated_at := now }
            ∈ handler records loadResult now)
  ∧ (loadResult = Except.ok () →
        (∀ w ∈ handler records loadResult now, w.status = Status.succeeded)
      ∧ ∀ r ∈ get_queued_ingestions records,
          { r with status := Status.succeeded, message := none, updated_at := now }
            ∈ handler records loadResult now)
  ∧ (∀ w ∈ handler records loadResult now, w.status ≠ Status.started) := by
  by_cases hb : (get_queued_ingestions records).isEmpty
  · have hh : handler records loadResult now = [] := by rw [handler.eq_def, if_pos hb]
    have hbatch : get_queued_ingestions records = [] := List.isEmpty_iff.mp hb
    refine ⟨fun e _ => ⟨fun w hw => ?_, fun r hr => ?_⟩,
            fun _ => ⟨fun w hw => ?_, fun r hr => ?_⟩, fun w hw => ?_⟩ <;>
      first
        | exact absurd (hh ▸ hw) (List.not_mem_nil w)
        | exact absurd (hbatch ▸ hr) (List.not_mem_nil r)
  · refine ⟨fun e he => ?_, fun he => ?_, fun w hw => ?_⟩
    · have hh : handler records loadResult now =
          update_dynamodb (get_queued_ingestions records) Status.failed (some e) now := by
        subst he
        rw [handler.eq_def, if_neg hb]
      constructor
      · intro w hw
        rw [hh] at hw
        obtain ⟨r, _, hr⟩ := List.mem_map.mp hw
        rw [← hr]
        exact ⟨rfl, rfl, fun hne hcontra => hne (Option.some.inj hcontra)⟩
      · intro r hr
        rw [hh]
        exact List.mem_map_of_mem _ hr
    · have hh : handler records loadResult now =
          update_dynamodb (get_queued_ingestions records) Status.succeeded none now := by
        subst he
        rw [handler.eq_def, if_neg hb]
      exact ⟨fun w hw => by
          rw [hh] at hw
          obtain ⟨r, _, hr⟩ := List.mem_map.mp hw
          rw [← hr],
        fun r hr => by
          rw [hh]
          exact List.mem_map_of_mem _ hr⟩
    · rw [handler.eq_def, if_neg hb] at hw
      cases loadResult with
      | ok u =>
        obtain ⟨r, _, hr⟩ := List.mem_map.mp hw
        rw [← hr]
        exact fun hcontra => Status.noConfusion hcontra
      | error e =>
        obtain ⟨r, _, hr⟩ := List.mem_map.mp hw
        rw [← hr]
        exact fun hcontra => Status.noConfusion hcontra

/-- C1 witness: for the exception text boom, the batch record is written
back failed with the non-empty message boom. -/
theorem c1_batch_writeback_witness :
    ({ recQueued with status := Status.failed, message := some "boom", updated_at := 5 }
        ∈ handler [recQueued] (Except.error "boom") 5)
  ∧ ∀ w ∈ handler [recQueued] (Except.error "boom") 5,
      w.status = Status.failed ∧ w.message = some "boom" ∧ ("boom" ≠ "" → w.message ≠ some "") :=
  ⟨((c1_batch_writeback [recQueued] (Except.error "boom") 5).1 "boom" rfl).2
      recQueued (by decide),
   ((c1_batch_writeback [recQueued] (Except.error "boom") 5).1 "boom" rfl).1⟩

/-- C2 counterexample: the PATCH update route is reachable by external
callers and persists whatever status the request carries; updating a
queued record with status succeeded returns and stores a succeeded
record, so the batch loader is not the only writer that advances records
past queued. -/
theorem c2_update_sets_succeeded_counterexample :
    (update_ingestion recQueued { status := some Status.succeeded } [recQueued] 3).1.status
        = Status.succeeded
  ∧ (update_ingestion recQueued { status := some Status.succeeded } [recQueued] 3).2
        = [{ recQueued with status := Status.succeeded, updated_at := 3 }] := by
  constructor
  · rfl
  · decide

/-- C2 as amended: create writes only queued and cancel writes only
cancelled, and the loader writes only succeeded or failed, but the update
route writes exactly the status its external caller supplies (any of the
five, or the stored one when unset). -/
theorem c2_status_writers {A : Type} :
    (∀ (id username : String) (item : A) (db : List (Ingestion A)) (now : Nat),
        (create_ingestion id username item db now).1.status = Status.queued)
  ∧ (∀ (ingestion : Ingestion A) (db : List (Ingestion A)) (now : Nat) (r : Ingestion A),
        (cancel_ingestion ingestion db now).1 = Except.ok r → r.status = Status.cancelled)
  ∧ (∀ (ingestion : Ingestion A) (update : UpdateIngestionRequest)
        (db : List (Ingestion A)) (now : Nat),
        (update_ingestion ingestion update db now).1.status
          = update.status.getD ingestion.status)
  ∧ (∀ (records : List (Ingestion A)) (loadResult : Except String Unit) (now : Nat)
        (w : Ingestion A), w ∈ handler records loadResult now →
        w.status = Status.succeeded ∨ w.status = Status.failed) := by
  refine ⟨fun id username item db now => rfl,
          fun ingestion db now r h => ?_,
          fun ingestion update db now => rfl,
          fun records loadResult now w hw => ?_⟩
  · unfold cancel_ingestion at h
    by_cases hq : ingestion.status ≠ Status.queued
    · rw [if_pos hq] at h
      exact absurd h (by simp)
    · rw [if_neg hq] at h
      have : ({ ingestion with status := Status.cancelled, updated_at := now } : Ingestion A)
          = r := by
        exact Except.ok.inj h
      rw [← this]
  · by_cases hb : (get_queued_ingestions records).isEmpty
    · rw [handler.eq_def, if_pos hb] at hw
      exact absurd hw (List.not_mem_nil w)
    · rw [handler.eq_def, if_neg hb] at hw
      cases loadResult with
      | ok u =>
        obtain ⟨r, _, hr⟩ := List.mem_map.mp hw
        rw [← hr]
        exact Or.inl rfl
      | error e =>
        obtain ⟨r, _, hr⟩ := List.mem_map.mp hw
        rw [← hr]
        exact Or.inr rfl

/-- C2 witness: the cancel clause applied to a concrete cancelled save,
and the loader clause applied to a concrete successful batch. -/
theorem c2_status_writers_witness :
    ({ recQueued with status := Status.cancelled, updated_at := 7 } : Ingestion Nat).status
        = Status.cancelled
  ∧ (({ recQueued with status := Status.succeeded, message := none, updated_at := 7 }
        : Ingestion Nat).status = Status.succeeded
     ∨ ({ recQueued with status := Status.succeeded, message := none, updated_at := 7 }
        : Ingestion Nat).status = Status.failed) :=
  ⟨(c2_status_writers (A := Nat)).2.1 recQueued [] 7 _ (by decide),
   (c2_status_writers (A := Nat)).2.2.2 [recQueued] (Except.ok ()) 7 _ (by decide)⟩

/-- C7 counterexample: the cursor aGVsbG8= is valid base64 for the bytes
of hello, which is not JSON, so it does not round-trip as base64-encoded
JSON; the claim demands the InvalidCursor 422 rejection, but json.loads
raises a JSONDecodeError that the except clause does not catch, so the
request crashes instead. -/
theorem c7_json_cursor_crash_counterexample :
    cursor_round_trips "aGVsbG8=" = false
  ∧ post_init_post_parse (some "aGVsbG8=") = CursorParse.uncaughtJsonError
  ∧ post_init_post_parse (some "aGVsbG8=") ≠ CursorParse.invalidCursor := by decide

/-- C7 as amended: only two failure modes of the cursor pipeline reach
the InvalidCursor 422 rejection — the binascii.Error of an ASCII cursor
with ill-formed base64 padding, and the UnicodeDecodeError of decoded
bytes that fail the detected-encoding decode; a non-ASCII cursor crashes
with the uncaught ValueError of the ASCII encoding step, a cursor whose
decoded text is rejected by the JSON scanner crashes with an uncaught
JSONDecodeError, and a round-tripping cursor is parsed (which, through
the utf-16 and utf-32 byte-order heuristics, some byte sequences that
are not UTF-8 still do). -/
theorem c7_cursor_classification :
    (∀ s : String, b64decode s = Except.error B64Error.valueError →
        post_init_post_parse (some s) = CursorParse.uncaughtValueError)
  ∧ (∀ s : String, b64decode s = Except.error B64Error.binasciiError →
        post_init_post_parse (some s) = CursorParse.invalidCursor)
  ∧ (∀ (s : String) (bytes : List Nat), b64decode s = Except.ok bytes →
        json_bytes_text bytes = none →
        post_init_post_parse (some s) = CursorParse.invalidCursor)
  ∧ (∀ (s : String) (bytes text : List Nat), b64decode s = Except.ok bytes →
        json_bytes_text bytes = some text → json_loads_ok text = false →
        post_init_post_parse (some s) = CursorParse.uncaughtJsonError)
  ∧ (∀ s : String, cursor_round_trips s = true →
        ∃ text, post_init_post_parse (some s) = CursorParse.parsed text)
  ∧ (∀ s : String, cursor_round_trips s = false →
        post_init_post_parse (some s) = CursorParse.invalidCursor
      ∨ post_init_post_parse (some s) = CursorParse.uncaughtJsonError
      ∨ post_init_post_parse (some s) = CursorParse.uncaughtValueError) := by
  refine ⟨fun s h1 => ?_, fun s h1 => ?_, fun s bytes h1 h2 => ?_,
          fun s bytes text h1 h2 h3 => ?_, fun s h => ?_, fun s h => ?_⟩
  · simp [post_init_post_parse, h1]
  · simp [post_init_post_parse, h1]
  · simp [post_init_post_parse, h1, h2]
  · simp [post_init_post_parse, h1, h2, h3]
  · unfold cursor_round_trips at h
    rcases h1 : b64decode s with e | bytes
    · simp [h1] at h
    · rcases h2 : json_bytes_text bytes with _ | text
      · simp [h1, h2] at h
      · simp [h1, h2] at h
        exact ⟨text, by simp [post_init_post_parse, h1, h2, h]⟩
  · unfold cursor_round_trips at h
    rcases h1 : b64decode s with e | bytes
    · cases e with
      | valueError => exact Or.inr (Or.inr (by simp [post_init_post_parse, h1]))
      | binasciiError => exact Or.inl (by simp [post_init_post_parse, h1])
    · rcases h2 : json_bytes_text bytes with _ | text
      · exact Or.inl (by simp [post_init_post_parse, h1, h2])
      · simp [h1, h2] at h
        exact Or.inr (Or.inl (by simp [post_init_post_parse, h1, h2, h]))

/-- C7 witness: the non-ASCII cursor crashes with the uncaught
ValueError; a one-character cursor fails base64 padding and is rejected
with InvalidCursor; the cursor for the single byte 255 fails the UTF-8
decode and is rejected with InvalidCursor; the cursor for the bytes
FF FE decodes as an empty utf-16 text that the JSON scanner rejects, so
it crashes with the uncaught JSONDecodeError; the cursor for the empty
JSON object round-trips and is parsed, and so does the cursor for the
bytes FF FE 31 00, which the encoding heuristics read as utf-16 JSON. -/
theorem c7_cursor_classification_witness :
    post_init_post_parse (some "éA") = CursorParse.uncaughtValueError
  ∧ post_init_post_parse (some "a") = CursorParse.invalidCursor
  ∧ post_init_post_parse (some "/w==") = CursorParse.invalidCursor
  ∧ post_init_post_parse (some "//4=") = CursorParse.uncaughtJsonError
  ∧ (∃ text, post_init_post_parse (some "e30=") = CursorParse.parsed text)
  ∧ (∃ text, post_init_post_parse (some "//4xAA==") = CursorParse.parsed text) :=
  ⟨c7_cursor_classification.1 "éA" (by decide),
   c7_cursor_classification.2.1 "a" (by decide),
   c7_cursor_classification.2.2.1 "/w==" [255] (by decide) (by decide),
   c7_cursor_classification.2.2.2.1 "//4=" [255, 254] [] (by decide) (by decide) (by decide),
   c7_cursor_classification.2.2.2.2.1 "e30=" (by decide),
   c7_cursor_classification.2.2.2.2.1 "//4xAA==" (by decide)⟩

/-- The inner item loop resolves to: raise for the file when some item
matches it with a failing declared date extraction, otherwise report
whether the file was found by some item (or was already marked found). -/
theorem sampleItemLoop_spec (fname : String) (items : List DiscoveryItem) (found : Bool) :
    sampleItemLoop fname items found =
      if code_date_conflict items fname then Except.error fname
      else Except.ok (found || code_admissible items fname) := by
  induction items generalizing found with
  | nil => simp [sampleItemLoop, code_date_conflict, code_admissible]
  | cons item rest ih =>
    cases item with
    | cmr =>
      have hstep : sampleItemLoop fname (DiscoveryItem.cmr :: rest) found
          = sampleItemLoop fname rest found := rfl
      have hconf : code_date_conflict (DiscoveryItem.cmr :: rest) fname
          = code_date_conflict rest fname := by
        simp [code_date_conflict, item_date_conflict, List.any_cons]
      have hadm : code_admissible (DiscoveryItem.cmr :: rest) fname
          = code_admissible rest fname := by
        simp [code_admissible, code_matches, List.any_cons]
      rw [hstep, ih found, hconf, hadm]
    | s3 pfx bucket rgx dtr =>
      cases dtr with
      | none =>
        have hstep : sampleItemLoop fname (DiscoveryItem.s3 pfx bucket rgx none :: rest) found
            = (if rgx (basenameOf fname) && startsWithStr (keyPartOf fname) pfx then
                 sampleItemLoop fname rest true
               else sampleItemLoop fname rest found) := rfl
        have hconf : code_date_conflict (DiscoveryItem.s3 pfx bucket rgx none :: rest) fname
            = code_date_conflict rest fname := by
          simp [code_date_conflict, item_date_conflict, List.any_cons]
        rw [hstep, hconf]
        by_cases hm : (rgx (basenameOf fname) && startsWithStr (keyPartOf fname) pfx) = true
        · have hadm : code_admissible (DiscoveryItem.s3 pfx bucket rgx none :: rest) fname
              = true := by
            simp [code_admissible, code_matches, List.any_cons, hm]
          rw [if_pos hm, ih true, hadm]
          simp
        · have hadm : code_admissible (DiscoveryItem.s3 pfx bucket rgx none :: rest) fname
              = code_admissible rest fname := by
            simp [code_admissible, code_matches, List.any_cons, Bool.eq_false_iff.mpr hm]
          rw [if_neg hm, ih found, hadm]
      | some interval =>
        have hstep : sampleItemLoop fname
              (DiscoveryItem.s3 pfx bucket rgx (some interval) :: rest) found
            = (if rgx (basenameOf fname) && startsWithStr (keyPartOf fname) pfx then
                 (if extractDatesRaises fname interval then Except.error fname
                  else sampleItemLoop fname rest true)
               else sampleItemLoop fname rest found) := rfl
        rw [hstep]
        by_cases hm : (rgx (basenameOf fname) && startsWithStr (keyPartOf fname) pfx) = true
        · rw [if_pos hm]
          by_cases hr : extractDatesRaises fname interval = true
          · have hconf : code_date_conflict
                (DiscoveryItem.s3 pfx bucket rgx (some interval) :: rest) fname = true := by
              simp [code_date_conflict, item_date_conflict, List.any_cons, hm, hr]
            rw [if_pos hr, hconf]
            rfl
          · have hconf : code_date_conflict
                (DiscoveryItem.s3 pfx bucket rgx (some interval) :: rest) fname
                = code_date_conflict rest fname := by
              simp [code_date_conflict, item_date_conflict, List.any_cons,
                Bool.eq_false_iff.mpr hr]
            have hadm : code_admissible
                (DiscoveryItem.s3 pfx bucket rgx (some interval) :: rest) fname = true := by
              simp [code_admissible, code_matches, List.any_cons, hm]
            rw [if_neg hr, ih true, hconf, hadm]
            simp
        · have hmf : (rgx (basenameOf fname) && startsWithStr (keyPartOf fname) pfx) = false :=
            Bool.eq_false_iff.mpr hm
          have hconf : code_date_conflict
              (DiscoveryItem.s3 pfx bucket rgx (some interval) :: rest) fname
              = code_date_conflict rest fname := by
            simp [code_date_conflict, item_date_conflict, List.any_cons, hmf]
          have hadm : code_admissible
              (DiscoveryItem.s3 pfx bucket rgx (some interval) :: rest) fname
              = code_admissible rest fname := by
            simp [code_admissible, code_matches, List.any_cons, hmf]
          rw [if_neg hm, ih found, hconf, hadm]

/-- The outer file loop resolves to: raise for the first file with a date
conflict, otherwise append to the accumulator every file matched by no
item, in order. -/
theorem sampleFileLoop_spec (items : List DiscoveryItem) (files acc : List String) :
    sampleFileLoop items files acc =
      match files.find? (fun f => code_date_conflict items f) with
      | some f => Except.error f
      | none =>
        Except.ok (acc ++ files.filter (fun f => !code_admissible items f)) := by
  induction files generalizing acc with
  | nil => simp [sampleFileLoop]
  | cons f fs ih =>
    rw [sampleFileLoop, sampleItemLoop_spec]
    by_cases hc : code_date_conflict items f = true
    · rw [if_pos hc]
      rw [List.find?_cons_of_pos _ hc]
    · have hcf : code_date_conflict items f = false := Bool.eq_false_iff.mpr hc
      rw [if_neg hc]
      rw [List.find?_cons_of_neg _ (by simp [hcf])]
      by_cases ha : code_admissible items f = true
      · simp only [Bool.false_or, ha]
        rw [ih acc]
        have : List.filter (fun f => !code_admissible items f) (f :: fs)
            = List.filter (fun f => !code_admissible items f) fs := by
          simp [List.filter_cons, ha]
        rw [this]
      · have haf : code_admissible items f = false := Bool.eq_false_iff.mpr ha
        simp only [Bool.false_or, haf]
        rw [ih (acc ++ [f])]
        have : List.filter (fun f => !code_admissible items f) (f :: fs)
            = f :: List.filter (fun f => !code_admissible items f) fs := by
          simp [List.filter_cons, haf]
        rw [this]
        cases hfind : fs.find? (fun f => code_date_conflict items f) <;>
          simp [List.append_assoc]

/-- C8 counterexample: one s3 item with prefix foo/, the match-all default
regex and no granularity.  The claim accepts the sample file foo/valid.tif
(it starts with the prefix and its basename matches), yet the code rejects
it because the prefix is compared against the path with its first three
slash pieces dropped; conversely the claim rejects s3://bucket/foo/a.tif
(the file does not start with foo/), yet the code accepts it. -/
theorem c8_sample_files_counterexample :
    claim_accepts [cexItem] ["foo/valid.tif"] = true
  ∧ check_sample_files [cexItem] ["foo/valid.tif"]
      = SampleFilesResult.mismatch ["foo/valid.tif"]
  ∧ claim_accepts [cexItem] ["s3://bucket/foo/a.tif"] = false
  ∧ check_sample_files [cexItem] ["s3://bucket/foo/a.tif"]
      = SampleFilesResult.accepted := by decide

/-- C8 as amended: with at least one object-storage discovery item
present, the validator accepts exactly when every sample file is matched
by some s3 item — prefix compared against the path with its first three
slash pieces dropped, regex searched in the basename — and no s3 item
matching a file both declares a granularity and fails date extraction on
it; a mismatch rejection names exactly the files matched by no item, in
order, while a date-extraction failure aborts naming only the first
offending file. -/
theorem c8_check_sample_files_spec (items : List DiscoveryItem) (files : List String)
    (hne : items ≠ []) (hs3 : items.any DiscoveryItem.isS3 = true) :
    (check_sample_files items files = SampleFilesResult.accepted ↔
       ∀ f ∈ files, code_admissible items f = true ∧ code_date_conflict items f = false)
  ∧ (∀ bad, check_sample_files items files = SampleFilesResult.mismatch bad →
       bad = files.filter (fun f => !code_admissible items f) ∧ bad ≠ [])
  ∧ (∀ f, check_sample_files items files = SampleFilesResult.dateError f →
       f ∈ files ∧ code_date_conflict items f = true) := by
  have hie : items.isEmpty = false := by
    cases items with
    | nil => exact absurd rfl hne
    | cons a l => rfl
  have hred : check_sample_files items files =
      (match sampleFileLoop items files [] with
       | Except.error fname => SampleFilesResult.dateError fname
       | Except.ok invalid =>
         if !invalid.isEmpty then SampleFilesResult.mismatch invalid
         else SampleFilesResult.accepted) := by
    rw [check_sample_files, hie, hs3]
    rfl
  cases hfind : files.find? (fun f => code_date_conflict items f) with
  | some f =>
    have hmem : f ∈ files := List.mem_of_find?_eq_some hfind
    have hconf : code_date_conflict items f = true := List.find?_some hfind
    have hc : check_sample_files items files = SampleFilesResult.dateError f := by
      rw [hred, sampleFileLoop_spec, hfind]
    rw [hc]
    refine ⟨⟨fun h => absurd h (by simp), fun h => absurd ((h f hmem).2) (by simp [hconf])⟩,
            fun bad h => absurd h (by simp), fun f2 h => ?_⟩
    have hf2 : f = f2 := by simpa using h
    rw [← hf2]
    exact ⟨hmem, hconf⟩
  | none =>
    have hnoconf : ∀ f ∈ files, code_date_conflict items f = false := by
      intro f hf
      have := List.find?_eq_none.mp hfind f hf
      simpa using this
    by_cases hfil : (files.filter (fun f => !code_admissible items f)).isEmpty = true
    · have hnil : files.filter (fun f => !code_admissible items f) = [] :=
        List.isEmpty_iff.mp hfil
      have hadm : ∀ f ∈ files, code_admissible items f = true := by
        intro f hf
        have := List.filter_eq_nil_iff.mp hnil f hf
        simpa using this
      have hc : check_sample_files items files = SampleFilesResult.accepted := by
        rw [hred, sampleFileLoop_spec, hfind, List.nil_append, hnil]
        rfl
      rw [hc]
      exact ⟨⟨fun _ f hf => ⟨hadm f hf, hnoconf f hf⟩, fun _ => rfl⟩,
             fun bad h => absurd h (by simp), fun f2 h => absurd h (by simp)⟩
    · have hfe : (files.filter (fun f => !code_admissible items f)).isEmpty = false :=
        Bool.eq_false_iff.mpr hfil
      have hnonnil : files.filter (fun f => !code_admissible items f) ≠ [] := by
        intro hcontra
        rw [hcontra] at hfe
        exact absurd hfe (by simp [List.isEmpty])
      have hc : check_sample_files items files
          = SampleFilesResult.mismatch (files.filter (fun f => !code_admissible items f)) := by
        rw [hred, sampleFileLoop_spec, hfind, List.nil_append]
        show (if (!(files.filter (fun f => !code_admissible items f)).isEmpty) = true
              then SampleFilesResult.mismatch (files.filter (fun f => !code_admissible items f))
              else SampleFilesResult.accepted)
            = SampleFilesResult.mismatch (files.filter (fun f => !code_admissible items f))
        rw [hfe]
        rfl
      rw [hc]
      refine ⟨⟨fun h => absurd h (by simp), fun h => ?_⟩,
              fun bad h => ?_, fun f2 h => absurd h (by simp)⟩
      · obtain ⟨f, hf⟩ := List.exists_mem_of_ne_nil _ hnonnil
        have hmemf : f ∈ files := (List.mem_filter.mp hf).1
        have hnadm := (List.mem_filter.mp hf).2
        have hadm := (h f hmemf).1
        rw [hadm] at hnadm
        exact absurd hnadm (by simp)
      · have hbad : bad = files.filter (fun f => !code_admissible items f) :=
          (SampleFilesResult.mismatch.inj h).symm
        rw [hbad]
        exact ⟨rfl, hnonnil⟩

/-- The default last element of a nonempty list is a member. -/
theorem getLastD_cons_mem {α : Type} (a : α) (l : List α) : l.getLastD a ∈ a :: l := by
  induction l generalizing a with
  | nil => simp [List.getLastD_nil]
  | cons b t ih =>
    rw [List.getLastD_cons]
    exact List.mem_cons_of_mem a (ih b)

/-- In a sorted nonempty list every element is at most the last element. -/
theorem sorted_le_getLastD (l : List PyDate) (a : PyDate)
    (h : List.Sorted dateLe (a :: l)) : ∀ x ∈ a :: l, dateLe x (l.getLastD a) := by
  induction l generalizing a with
  | nil =>
    intro x hx
    rw [List.getLastD_nil]
    rcases List.mem_singleton.mp hx with rfl
    exact Nat.le_refl _
  | cons b t ih =>
    intro x hx
    rw [List.getLastD_cons]
    rcases List.mem_cons.mp hx with rfl | hx2
    · exact List.rel_of_sorted_cons h _ (getLastD_cons_mem b t)
    · exact ih b (List.Sorted.of_cons h) x hx2

/-- Reduction of extract_dates once the parsed dates list is known. -/
theorem extract_dates_of_found (filename : String) (dtr : Option Interval)
    (dates : List PyDate) (hfd : found_dates filename = Except.ok dates) :
    extract_dates filename dtr = outcome_of_dates dtr dates := by
  unfold extract_dates
  generalize hg : found_dates filename = fd
  rw [hg] at hfd
  subst hfd
  rfl

/-- C3: date extraction tries the four underscore-anchored patterns in
order and takes every hit of the first pattern that matches; zero dates
raises NoDateFound; more than one date yields the minimum and maximum of
the dates regardless of the declared granularity; exactly one date is
expanded to the calendar year, expanded to the calendar month with its
actual last day, or returned as a single instant, according to the
granularity; the four concrete examples of the claim behave as stated. -/
theorem c3_extract_dates_spec :
    (∀ (filename : String) (dtr : Option Interval),
        first_nonempty_findall filename = none →
        extract_dates filename dtr = ExtractOutcome.noDateFound)
  ∧ (∀ (filename : String) (dtr : Option Interval) (p : DatePattern)
        (hits : List (List Char)) (dates : List PyDate),
        first_nonempty_findall filename = some (p, hits) →
        mapStrptime p hits = some dates → dates.length > 1 →
        ∃ lo hi, extract_dates filename dtr = ExtractOutcome.range lo hi ∧
          lo ∈ dates ∧ hi ∈ dates ∧ ∀ d ∈ dates, dateLe lo d ∧ dateLe d hi)
  ∧ (∀ (filename : String) (d : PyDate), found_single filename d →
        extract_dates filename (some Interval.year)
          = ExtractOutcome.range ⟨d.year, 1, 1⟩ ⟨d.year, 12, 31⟩)
  ∧ (∀ (filename : String) (d : PyDate), found_single filename d →
        extract_dates filename (some Interval.month)
          = ExtractOutcome.range ⟨d.year, d.month, 1⟩
              ⟨d.year, d.month, daysInMonth d.year d.month⟩)
  ∧ (∀ (filename : String) (d : PyDate), found_single filename d →
        extract_dates filename none = ExtractOutcome.single d)
  ∧ extract_dates "modis_2021-08-14_band1.tif" none = ExtractOutcome.single ⟨2021, 8, 14⟩
  ∧ extract_dates "data_202108.tif" (some Interval.month)
      = ExtractOutcome.range ⟨2021, 8, 1⟩ ⟨2021, 8, 31⟩
  ∧ extract_dates "scene_2021_2022.tif" none
      = ExtractOutcome.range ⟨2021, 1, 1⟩ ⟨2022, 1, 1⟩
  ∧ extract_dates "scene_2021_2022.tif" (some Interval.month)
      = ExtractOutcome.range ⟨2021, 1, 1⟩ ⟨2022, 1, 1⟩
  ∧ extract_dates "banana.tif" none = ExtractOutcome.noDateFound := by
  refine ⟨fun filename dtr h => ?_, fun filename dtr p hits dates h1 h2 h3 => ?_,
          fun filename d hfs => ?_, fun filename d hfs => ?_, fun filename d hfs => ?_,
          by decide, by decide, by decide, by decide, by decide⟩
  · have hfd : found_dates filename = Except.ok [] := by
      unfold found_dates
      rw [h]
    rw [extract_dates_of_found filename dtr [] hfd]
    rfl
  · have hfd : found_dates filename = Except.ok dates := by
      unfold found_dates
      rw [h1]
      show (match mapStrptime p hits with
            | none => Except.error ()
            | some dates => Except.ok dates) = Except.ok dates
      rw [h2]
    have hlen0 : ¬ dates.length = 0 := by omega
    rcases hs : List.insertionSort dateLe dates with _ | ⟨d0, rest⟩
    · exfalso
      have hl := (List.perm_insertionSort dateLe dates).length_eq
      rw [hs] at hl
      simp at hl
      omega
    · have heq : extract_dates filename dtr
          = ExtractOutcome.range d0 (rest.getLastD d0) := by
        rw [extract_dates_of_found filename dtr dates hfd]
        unfold outcome_of_dates
        rw [if_neg hlen0, if_pos h3, hs]
      have hsorted : List.Sorted dateLe (d0 :: rest) := by
        have := List.sorted_insertionSort dateLe dates
        rwa [hs] at this
      have hperm : (d0 :: rest).Perm dates := by
        have := List.perm_insertionSort dateLe dates
        rwa [hs] at this
      refine ⟨d0, rest.getLastD d0, heq, ?_, ?_, ?_⟩
      · exact hperm.mem_iff.mp (List.mem_cons_self d0 rest)
      · exact hperm.mem_iff.mp (getLastD_cons_mem d0 rest)
      · intro d hd
        have hd2 : d ∈ d0 :: rest := hperm.mem_iff.mpr hd
        constructor
        · rcases List.mem_cons.mp hd2 with rfl | hmem
          · exact Nat.le_refl _
          · exact List.rel_of_sorted_cons hsorted d hmem
        · exact sorted_le_getLastD rest d0 hsorted d hd2
  · obtain ⟨p, sgl, h1, h2⟩ := hfs
    have hmap : mapStrptime p [sgl] = some [d] := by
      simp [mapStrptime, h2]
    have hfd : found_dates filename = Except.ok [d] := by
      unfold found_dates
      rw [h1]
      show (match mapStrptime p [sgl] with
            | none => Except.error ()
            | some dates => Except.ok dates) = Except.ok [d]
      rw [hmap]
    rw [extract_dates_of_found filename (some Interval.year) [d] hfd]
    rfl
  · obtain ⟨p, sgl, h1, h2⟩ := hfs
    have hmap : mapStrptime p [sgl] = some [d] := by
      simp [mapStrptime, h2]
    have hfd : found_dates filename = Except.ok [d] := by
      unfold found_dates
      rw [h1]
      show (match mapStrptime p [sgl] with
            | none => Except.error ()
            | some dates => Except.ok dates) = Except.ok [d]
      rw [hmap]
    rw [extract_dates_of_found filename (some Interval.month) [d] hfd]
    rfl
  · obtain ⟨p, sgl, h1, h2⟩ := hfs
    have hmap : mapStrptime p [sgl] = some [d] := by
      simp [mapStrptime, h2]
    have hfd : found_dates filename = Except.ok [d] := by
      unfold found_dates
      rw [h1]
      show (match mapStrptime p [sgl] with
            | none => Except.error ()
            | some dates => Except.ok dates) = Except.ok [d]
      rw [hmap]
    rw [extract_dates_of_found filename none [d] hfd]
    rfl

/-- C3 witness: the multi-date clause at scene_2021_2022.tif (two bare
years, min and max taken), the year and month expansions at concrete
filenames — February 2021 ends on its actual last day 28 — the
single-instant clause, and the NoDateFound clause. -/
theorem c3_extract_dates_witness :
    (∃ lo hi, extract_dates "scene_2021_2022.tif" none = ExtractOutcome.range lo hi ∧
        lo ∈ [(⟨2021, 1, 1⟩ : PyDate), ⟨2022, 1, 1⟩] ∧
        hi ∈ [(⟨2021, 1, 1⟩ : PyDate), ⟨2022, 1, 1⟩] ∧
        ∀ d ∈ [(⟨2021, 1, 1⟩ : PyDate), ⟨2022, 1, 1⟩], dateLe lo d ∧ dateLe d hi)
  ∧ extract_dates "x_2021.tif" (some Interval.year)
      = ExtractOutcome.range ⟨2021, 1, 1⟩ ⟨2021, 12, 31⟩
  ∧ extract_dates "x_202102.tif" (some Interval.month)
      = ExtractOutcome.range ⟨2021, 2, 1⟩ ⟨2021, 2, 28⟩
  ∧ extract_dates "x_2021-05-06.tif" none = ExtractOutcome.single ⟨2021, 5, 6⟩
  ∧ extract_dates "nodigits.tif" none = ExtractOutcome.noDateFound :=
  ⟨c3_extract_dates_spec.2.1 "scene_2021_2022.tif" none DatePattern.y4
      [['2', '0', '2', '1'], ['2', '0', '2', '2']]
      [⟨2021, 1, 1⟩, ⟨2022, 1, 1⟩] (by decide) (by decide) (by decide),
   c3_extract_dates_spec.2.2.1 "x_2021.tif" ⟨2021, 1, 1⟩
      ⟨DatePattern.y4, ['2', '0', '2', '1'], by decide, by decide⟩,
   c3_extract_dates_spec.2.2.2.1 "x_202102.tif" ⟨2021, 2, 1⟩
      ⟨DatePattern.ym6, ['2', '0', '2', '1', '0', '2'], by decide, by decide⟩,
   c3_extract_dates_spec.2.2.2.2.1 "x_2021-05-06.tif" ⟨2021, 5, 6⟩
      ⟨DatePattern.ymdDashed, ['2', '0', '2', '1', '-', '0', '5', '-', '0', '6'],
        by decide, by decide⟩,
   c3_extract_dates_spec.1 "nodigits.tif" none (by decide)⟩

/-- C8 witness: the amended acceptance condition applied at a key-shaped
sample path that the code accepts, and the mismatch clause applied at the
rejected bare path, showing the error names exactly the unmatched file. -/
theorem c8_check_sample_files_witness :
    check_sample_files [cexItem] ["s3://bucket/foo/a.tif"] = SampleFilesResult.accepted
  ∧ (["foo/valid.tif"] : List String)
      = ["foo/valid.tif"].filter (fun f => !code_admissible [cexItem] f)
  ∧ (["foo/valid.tif"] : List String) ≠ [] :=
  have h1 := c8_check_sample_files_spec [cexItem] ["s3://bucket/foo/a.tif"]
    (List.cons_ne_nil cexItem []) (by decide)
  have h2 := c8_check_sample_files_spec [cexItem] ["foo/valid.tif"]
    (List.cons_ne_nil cexItem []) (by decide)
  have hm := h2.2.1 ["foo/valid.tif"] (by decide)
  ⟨h1.1.mpr (by decide), hm.1, hm.2⟩

end Veda
